import Mathlib

/-!
# Live transcription session manager: shallow embedding

This file embeds the live transcription core of the repository:

* `src/src/sockets/audioStream.handler.ts` (class `AudioStreamHandler`)
* the `TranscriptionService` class of `src/src/services/meeting.service.ts`
  (Deepgram live transcription wrapper)

The mutable state of the pair of classes is the structure `AppState`:

* `activeConnections` embeds `TranscriptionService.activeConnections`
  (`Map<string, connection>`); a connection handle is modelled as a `Nat`
  drawn from the fresh counter `nextConn`.
* `closedConns` records the handles on which `connection.finish()` was
  invoked, so that a leaked (replaced but never finished) upstream
  connection is observable.
* `transcriptBuffers` embeds `AudioStreamHandler.transcriptBuffers`
  (`Map<string, string[]>`).
* `socketRooms` embeds the room membership of the one modelled socket
  (`socket.join` / `socket.leave` on room `meeting:<id>`).
* `persistCalls` records every call handed to the persistence collaborator
  (`meetingRepository.setTranscript` via `saveTranscript`), in order.

External effects that can fail (meeting ownership lookup, Deepgram
`listen.live`, `connection.finish()`, `setTranscript`) are driven by
explicit oracle arguments, so each code path of the source is a branch of
the Lean function. Outbound socket emissions are returned as `OutEvent`
lists. Logging calls have no observable effect and are not modelled.
-/

/-- A JavaScript `Map<string, α>` as an association list with the key order
of insertion; `mapSet` replaces in place, as `Map.prototype.set` does. -/
def mapGet {α : Type} : List (String × α) → String → Option α
  | [], _ => none
  | (k1, v) :: rest, k => if k1 = k then some v else mapGet rest k

/-- `Map.prototype.set`: update the value in place if the key exists,
otherwise append the new entry. -/
def mapSet {α : Type} : List (String × α) → String → α → List (String × α)
  | [], k, v => [(k, v)]
  | (k1, v1) :: rest, k, v =>
    if k1 = k then (k, v) :: rest else (k1, v1) :: mapSet rest k v

/-- `Map.prototype.delete`: remove the entry with the given key. -/
def mapDelete {α : Type} : List (String × α) → String → List (String × α)
  | [], _ => []
  | (k1, v1) :: rest, k =>
    if k1 = k then mapDelete rest k else (k1, v1) :: mapDelete rest k

/-- `socket.leave(room)`: drop a room from the membership list. -/
def removeRoom : List String → String → List String
  | [], _ => []
  | r :: rest, x => if r = x then removeRoom rest x else r :: removeRoom rest x

/-- An outbound socket.io emission of the handler. `streamError` is unicast
to the offending socket; `transcriptionUpdate` is broadcast to the meeting
room; `streamStarted` and `streamStopped` are emitted to the requesting
socket. -/
inductive OutEvent where
  | streamError (message : String)
  | streamStarted (meetingId : String)
  | streamStopped (meetingId : String) (transcript : String)
  | transcriptionUpdate (meetingId : String) (text : String) (isFinal : Bool)
      (confidence : Option Nat)
  deriving DecidableEq, Repr

/-- The joint mutable state of `AudioStreamHandler` and
`TranscriptionService`, together with the ledgers `closedConns` and
`persistCalls` that make calls to external collaborators observable. -/
structure AppState where
  activeConnections : List (String × Nat)
  nextConn : Nat
  closedConns : List Nat
  transcriptBuffers : List (String × List String)
  socketRooms : List String
  persistCalls : List (String × String)
  deriving DecidableEq, Repr

/-- Fresh handler state: both maps empty, no rooms joined. -/
def initialState : AppState :=
  { activeConnections := []
    nextConn := 0
    closedConns := []
    transcriptBuffers := []
    socketRooms := []
    persistCalls := [] }

/-- The payload of a `transcription:data` event of `TranscriptionService`
(`{ meetingId, transcript, isFinal, confidence }`). The confidence value is
only forwarded, never inspected, by the code, so its numeric type is
immaterial; `Option Nat` keeps the possibly-undefined JS field. -/
structure Fragment where
  meetingId : String
  text : String
  isFinal : Bool
  confidence : Option Nat
  deriving DecidableEq, Repr

/-- `AudioStreamHandler.handleStreamStart` (audioStream.handler.ts lines
98-130). `meetingOwner` is the result of
`meetingRepository.findById(meetingId)` projected to its `userId` field
(`none` = meeting not found); `openOk` tells whether
`startLiveTranscription` succeeds (in the service, `deepgram.listen.live`
is the only fallible step before the connection is stored; on success the
connection is stored in `activeConnections` and the handler joins the room
and emits `stream:started`; on failure the catch block emits
`stream:error`). Note the buffer is reset BEFORE any duplicate check (there
is none) and is NOT reverted on failure. -/
def handleStreamStart (st : AppState) (userId meetingId : String)
    (meetingOwner : Option String) (openOk : Bool) : AppState × List OutEvent :=
  if meetingOwner ≠ some userId then
    (st, [OutEvent.streamError "Meeting not found or unauthorized"])
  else
    let st1 : AppState :=
      { st with transcriptBuffers := mapSet st.transcriptBuffers meetingId [] }
    if openOk then
      let st2 : AppState :=
        { st1 with
            activeConnections := mapSet st1.activeConnections meetingId st1.nextConn
            nextConn := st1.nextConn + 1 }
      let st3 : AppState :=
        { st2 with
            socketRooms :=
              if st2.socketRooms.contains meetingId then st2.socketRooms
              else st2.socketRooms ++ [meetingId] }
      (st3, [OutEvent.streamStarted meetingId])
    else
      (st1, [OutEvent.streamError "Failed to start stream"])

/-- `AudioStreamHandler.handleTranscriptionData` (audioStream.handler.ts
lines 156-173): a final fragment is pushed onto the buffer for its meeting
(`this.transcriptBuffers.get(meetingId) || []`), and every fragment is
broadcast to the meeting room as `transcription:update`. -/
def handleTranscriptionData (st : AppState) (f : Fragment) :
    AppState × List OutEvent :=
  let st1 : AppState :=
    if f.isFinal then
      let buffer := (mapGet st.transcriptBuffers f.meetingId).getD []
      { st with
          transcriptBuffers :=
            mapSet st.transcriptBuffers f.meetingId (buffer ++ [f.text]) }
    else st
  (st1, [OutEvent.transcriptionUpdate f.meetingId f.text f.isFinal f.confidence])

/-- The tail of `AudioStreamHandler.handleStreamStop` after
`stopLiveTranscription` has returned: join the buffer with a single space
(`buffer.join(' ')`), persist it when non-empty (`if (fullTranscript)`),
then delete the buffer entry, leave the room and emit `stream:stopped`.
When `saveTranscript` throws (`saveOk = false`) the catch block emits
`stream:error` and the teardown steps after the save are skipped. -/
def handleStreamStopAfterClose (st : AppState) (meetingId : String)
    (saveOk : Bool) : AppState × List OutEvent :=
  let buffer := (mapGet st.transcriptBuffers meetingId).getD []
  let fullTranscript := String.intercalate " " buffer
  if fullTranscript = "" then
    ({ st with
        transcriptBuffers := mapDelete st.transcriptBuffers meetingId
        socketRooms := removeRoom st.socketRooms meetingId },
     [OutEvent.streamStopped meetingId fullTranscript])
  else
    let st1 : AppState :=
      { st with persistCalls := st.persistCalls ++ [(meetingId, fullTranscript)] }
    if saveOk then
      ({ st1 with
          transcriptBuffers := mapDelete st1.transcriptBuffers meetingId
          socketRooms := removeRoom st1.socketRooms meetingId },
       [OutEvent.streamStopped meetingId fullTranscript])
    else
      (st1, [OutEvent.streamError "Failed to stop stream"])

/-- `AudioStreamHandler.handleStreamStop` (audioStream.handler.ts lines
178-210). It first awaits `TranscriptionService.stopLiveTranscription`
(meeting.service.ts concatenation lines 403-415): if a connection is
stored, `connection.finish()` is called (`finishOk` tells whether it
throws) and the entry deleted; with no stored connection it is a silent
no-op. A throw anywhere lands in the catch block, which emits
`stream:error` and skips the remaining teardown. -/
def handleStreamStop (st : AppState) (meetingId : String)
    (finishOk saveOk : Bool) : AppState × List OutEvent :=
  match mapGet st.activeConnections meetingId with
  | none => handleStreamStopAfterClose st meetingId saveOk
  | some conn =>
    if finishOk then
      handleStreamStopAfterClose
        { st with
            activeConnections := mapDelete st.activeConnections meetingId
            closedConns := st.closedConns ++ [conn] }
        meetingId saveOk
    else
      (st, [OutEvent.streamError "Failed to stop stream"])

/-- `AudioStreamHandler.handleDisconnect` (audioStream.handler.ts lines
215-218): the body only logs ("Clean up any active streams for this
socket" is a comment with no code behind it), so the transition is the
identity with no emissions. -/
def handleDisconnect (st : AppState) : AppState × List OutEvent :=
  (st, [])

/-- The `transcription:error` listener installed in the
`AudioStreamHandler` constructor (audioStream.handler.ts lines 28-30): it
only logs the error, so the transition is the identity with no emissions.
(The Error handler in `startLiveTranscription`, concatenation lines
365-368, likewise only logs and re-emits the event to this listener.) -/
def handleTranscriptionError (st : AppState) (_meetingId : String) :
    AppState × List OutEvent :=
  (st, [])

/-- One alternative of a Deepgram live transcript event
(`data.channel.alternatives[k]`); both fields may be absent. -/
structure DeepgramAlternative where
  transcript : Option String
  confidence : Option Nat
  deriving DecidableEq, Repr

/-- A Deepgram live `Transcript` event as read by the service:
`alternatives = none` collapses the absence of `data.channel` or of
`data.channel.alternatives` under the optional chaining
`data.channel?.alternatives?.[0]?...`. -/
structure DeepgramTranscriptEvent where
  alternatives : Option (List DeepgramAlternative)
  is_final : Bool
  deriving DecidableEq, Repr

/-- `data.channel?.alternatives?.[0]?.transcript` (meeting.service.ts
concatenation line 353). -/
def extractTranscript (data : DeepgramTranscriptEvent) : Option String :=
  match data.alternatives with
  | none => none
  | some alts =>
    match alts.head? with
    | none => none
    | some alt => alt.transcript

/-- `data.channel?.alternatives?.[0]?.confidence` (concatenation line 360). -/
def extractConfidence (data : DeepgramTranscriptEvent) : Option Nat :=
  match data.alternatives with
  | none => none
  | some alts =>
    match alts.head? with
    | none => none
    | some alt => alt.confidence

/-- The `Transcript` event handler of `startLiveTranscription`
(concatenation lines 352-363): extract the transcript and, only when it is
truthy (present and non-empty), emit a `transcription:data` fragment. -/
def onDeepgramTranscript (meetingId : String) (data : DeepgramTranscriptEvent) :
    Option Fragment :=
  match extractTranscript data with
  | none => none
  | some t =>
    if t = "" then none
    else
      some { meetingId := meetingId
             text := t
             isFinal := data.is_final
             confidence := extractConfidence data }

/-- The composition of the service Transcript handler with the
`transcription:data` listener of `AudioStreamHandler`: a raw upstream event
either becomes a fragment that is buffered/broadcast, or nothing happens. -/
def dispatchDeepgramTranscript (st : AppState) (meetingId : String)
    (data : DeepgramTranscriptEvent) : AppState × List OutEvent :=
  match onDeepgramTranscript meetingId data with
  | none => (st, [])
  | some f => handleTranscriptionData st f

/-- Deliver a sequence of `transcription:data` fragments to the handler in
emission order, collecting the emissions. -/
def processFragments (st : AppState) : List Fragment → AppState × List OutEvent
  | [] => (st, [])
  | f :: rest =>
    let step := handleTranscriptionData st f
    let restRes := processFragments step.fst rest
    (restRes.fst, step.snd ++ restRes.snd)

/-- A whole session on a fresh handler: a successful `stream:start`, a
sequence of adapter fragments, then a `stream:stop` whose external calls
all succeed. -/
def runSession (userId meetingId : String) (owner : Option String)
    (frags : List Fragment) : AppState × List OutEvent :=
  let started := handleStreamStart initialState userId meetingId owner true
  let streamed := processFragments started.fst frags
  let stopped := handleStreamStop streamed.fst meetingId true true
  (stopped.fst, started.snd ++ streamed.snd ++ stopped.snd)

/-- The texts of the final fragments of a stream, in order. -/
def finalTexts : List Fragment → List String
  | [] => []
  | f :: rest => if f.isFinal then f.text :: finalTexts rest else finalTexts rest

/-- The texts of the final fragments addressed to meeting `m`, in order. -/
def finalTextsFor (m : String) : List Fragment → List String
  | [] => []
  | f :: rest =>
    if f.meetingId = m ∧ f.isFinal then f.text :: finalTextsFor m rest
    else finalTextsFor m rest

/-! ## Concrete states used as test vectors -/

/-- State after owner `userA` successfully starts a stream for meeting
`m1` on a fresh handler. -/
def stActive : AppState :=
  (handleStreamStart initialState "userA" "m1" (some "userA") true).fst

/-- A final fragment `hello` for meeting `m1`. -/
def fragHello : Fragment :=
  { meetingId := "m1", text := "hello", isFinal := true, confidence := some 9 }

/-- `stActive` after the adapter delivered the final fragment `hello`. -/
def stActiveHello : AppState :=
  (handleTranscriptionData stActive fragHello).fst

/-- Two final fragments for `m1` with texts `hello` and `world`. -/
def fragsHelloWorld : List Fragment :=
  [fragHello,
   { meetingId := "m1", text := "world", isFinal := true, confidence := some 8 }]

/-! ## Map lemmas -/

theorem mapGet_mapSet_self {α : Type} (m : List (String × α)) (k : String)
    (v : α) : mapGet (mapSet m k v) k = some v := by
  induction m with
  | nil => simp [mapGet, mapSet]
  | cons p rest ih =>
    by_cases h : p.fst = k
    · simp [mapSet, mapGet, h]
    · simp only [mapSet, mapGet]
      rw [if_neg h, mapGet, if_neg h]
      exact ih

theorem mapGet_mapSet_ne {α : Type} (m : List (String × α)) (k k2 : String)
    (v : α) (h : k2 ≠ k) : mapGet (mapSet m k v) k2 = mapGet m k2 := by
  induction m with
  | nil => simp [mapGet, mapSet, if_neg (Ne.symm h)]
  | cons p rest ih =>
    by_cases h1 : p.fst = k
    · have h2 : ¬k = k2 := Ne.symm h
      have h3 : ¬p.fst = k2 := by rw [h1]; exact h2
      simp only [mapSet, if_pos h1, mapGet, if_neg h2, if_neg h3]
    · simp only [mapSet, if_neg h1, mapGet]
      by_cases h2 : p.fst = k2
      · rw [if_pos h2, if_pos h2]
      · rw [if_neg h2, if_neg h2]
        exact ih

theorem mapGet_mapDelete_ne {α : Type} (m : List (String × α)) (k k2 : String)
    (h : k2 ≠ k) : mapGet (mapDelete m k) k2 = mapGet m k2 := by
  induction m with
  | nil => simp [mapGet, mapDelete]
  | cons p rest ih =>
    by_cases h1 : p.fst = k
    · have h3 : ¬p.fst = k2 := by rw [h1]; exact Ne.symm h
      simp only [mapDelete, if_pos h1, mapGet, if_neg h3]
      exact ih
    · simp only [mapDelete, if_neg h1, mapGet]
      by_cases h2 : p.fst = k2
      · rw [if_pos h2, if_pos h2]
      · rw [if_neg h2, if_neg h2]
        exact ih

theorem mapDelete_absent {α : Type} (m : List (String × α)) (k : String)
    (h : mapGet m k = none) : mapDelete m k = m := by
  induction m with
  | nil => rfl
  | cons p rest ih =>
    simp only [mapGet] at h
    by_cases h1 : p.fst = k
    · rw [if_pos h1] at h
      exact absurd h (by simp)
    · rw [if_neg h1] at h
      simp only [mapDelete, if_neg h1]
      rw [ih h]

theorem removeRoom_not_mem (l : List String) (x : String) (h : x ∉ l) :
    removeRoom l x = l := by
  induction l with
  | nil => rfl
  | cons r rest ih =>
    simp only [List.mem_cons, not_or] at h
    simp only [removeRoom, if_neg (Ne.symm h.1)]
    rw [ih h.2]

/-! ## Structural lemmas about the handlers -/

theorem handleTranscriptionData_fields (st : AppState) (f : Fragment) :
    (handleTranscriptionData st f).fst.activeConnections = st.activeConnections ∧
    (handleTranscriptionData st f).fst.nextConn = st.nextConn ∧
    (handleTranscriptionData st f).fst.closedConns = st.closedConns ∧
    (handleTranscriptionData st f).fst.socketRooms = st.socketRooms ∧
    (handleTranscriptionData st f).fst.persistCalls = st.persistCalls := by
  cases hf : f.isFinal <;> simp [handleTranscriptionData, hf]

theorem handleTranscriptionData_buffer (st : AppState) (f : Fragment)
    (m : String) :
    (mapGet (handleTranscriptionData st f).fst.transcriptBuffers m).getD []
      = (mapGet st.transcriptBuffers m).getD []
          ++ (if f.meetingId = m ∧ f.isFinal then [f.text] else []) := by
  cases hf : f.isFinal
  · simp [handleTranscriptionData, hf]
  · by_cases hm : f.meetingId = m
    · subst hm
      simp [handleTranscriptionData, hf, mapGet_mapSet_self]
    · simp [handleTranscriptionData, hf, mapGet_mapSet_ne _ _ _ _ (Ne.symm hm), hm]

theorem processFragments_fields (st : AppState) (frags : List Fragment) :
    (processFragments st frags).fst.activeConnections = st.activeConnections ∧
    (processFragments st frags).fst.nextConn = st.nextConn ∧
    (processFragments st frags).fst.closedConns = st.closedConns ∧
    (processFragments st frags).fst.socketRooms = st.socketRooms ∧
    (processFragments st frags).fst.persistCalls = st.persistCalls := by
  induction frags generalizing st with
  | nil => simp [processFragments]
  | cons f rest ih =>
    have hstep := handleTranscriptionData_fields st f
    have htail := ih (handleTranscriptionData st f).fst
    simp only [processFragments]
    exact ⟨htail.1.trans hstep.1, htail.2.1.trans hstep.2.1,
      htail.2.2.1.trans hstep.2.2.1, htail.2.2.2.1.trans hstep.2.2.2.1,
      htail.2.2.2.2.trans hstep.2.2.2.2⟩

theorem processFragments_events_eq (st : AppState) (frags : List Fragment) :
    (processFragments st frags).snd
      = frags.map (fun f =>
          OutEvent.transcriptionUpdate f.meetingId f.text f.isFinal f.confidence) := by
  induction frags generalizing st with
  | nil => simp [processFragments]
  | cons f rest ih =>
    simp only [processFragments, List.map_cons]
    rw [ih]
    have hsnd : (handleTranscriptionData st f).snd
        = [OutEvent.transcriptionUpdate f.meetingId f.text f.isFinal f.confidence] := by
      simp [handleTranscriptionData]
    rw [hsnd]
    rfl

theorem processFragments_buffer (st : AppState) (frags : List Fragment)
    (m : String) :
    (mapGet (processFragments st frags).fst.transcriptBuffers m).getD []
      = (mapGet st.transcriptBuffers m).getD [] ++ finalTextsFor m frags := by
  induction frags generalizing st with
  | nil => simp [processFragments, finalTextsFor]
  | cons f rest ih =>
    simp only [processFragments]
    rw [ih (handleTranscriptionData st f).fst,
      handleTranscriptionData_buffer st f m]
    by_cases hc : f.meetingId = m ∧ f.isFinal = true
    · simp [finalTextsFor, hc, List.append_assoc]
    · simp [finalTextsFor, hc]

theorem finalTextsFor_of_all_mem (m : String) (frags : List Fragment)
    (h : ∀ f ∈ frags, f.meetingId = m) :
    finalTextsFor m frags = finalTexts frags := by
  induction frags with
  | nil => rfl
  | cons f rest ih =>
    have hm : f.meetingId = m := h f (List.mem_cons_self f rest)
    have hrest := ih (fun g hg => h g (List.mem_cons_of_mem f hg))
    cases hf : f.isFinal
    · simp [finalTextsFor, finalTexts, hf, hrest]
    · simp [finalTextsFor, finalTexts, hf, hm, hrest]

theorem handleStreamStart_owner_ok (st : AppState) (userId m : String) :
    handleStreamStart st userId m (some userId) true =
      ({ st with
          transcriptBuffers := mapSet st.transcriptBuffers m []
          activeConnections := mapSet st.activeConnections m st.nextConn
          nextConn := st.nextConn + 1
          socketRooms :=
            if st.socketRooms.contains m then st.socketRooms
            else st.socketRooms ++ [m] },
       [OutEvent.streamStarted m]) := by
  simp [handleStreamStart]

/-! ## Claim theorems -/

/-- C1: the spec says a second `start` for an id that is already Active is
rejected with a DuplicateSession error and leaves buffer and upstream
connection unchanged. The code has no duplicate check at all: at a state
where `m1` is Active with buffered text `hello`, a second `start` by the
owner emits `stream:started` (no error), resets the transcript buffer to
empty, and replaces the stored upstream connection 0 with a fresh
connection 1 without ever closing connection 0 (`closedConns` stays
empty): the old Deepgram stream is leaked while still emitting. -/
theorem C1_duplicate_start_accepted :
    mapGet stActiveHello.activeConnections "m1" = some 0 ∧
    mapGet stActiveHello.transcriptBuffers "m1" = some ["hello"] ∧
    handleStreamStart stActiveHello "userA" "m1" (some "userA") true =
      ({ activeConnections := [("m1", 1)], nextConn := 2, closedConns := [],
         transcriptBuffers := [("m1", [])], socketRooms := ["m1"],
         persistCalls := [] },
       [OutEvent.streamStarted "m1"]) := by
  refine ⟨by decide, by decide, ?_⟩
  decide

/-- C2: the spec says disconnect of the owning connection is equivalent to
an explicit `stop`. The code of `handleDisconnect` only logs (its comment
announces cleanup that is never performed): at a state where `m1` is
Active with buffered text `hello`, disconnect leaves the upstream
connection registered, the buffer intact and nothing persisted, whereas an
explicit `stop` at the same state closes the connection, persists the
transcript and clears the buffer. -/
theorem C2_disconnect_is_noop :
    handleDisconnect stActiveHello = (stActiveHello, []) ∧
    mapGet stActiveHello.activeConnections "m1" = some 0 ∧
    mapGet stActiveHello.transcriptBuffers "m1" = some ["hello"] ∧
    stActiveHello.persistCalls = [] ∧
    (handleDisconnect stActiveHello).fst
      ≠ (handleStreamStop stActiveHello "m1" true true).fst := by
  refine ⟨by decide, by decide, by decide, by decide, ?_⟩
  decide

/-- C3 (counterexample): the claim says an adapter error while Active
forces the session to Stopping, closing the upstream connection, with a
`stream:error` broadcast. At a state where `m1` is Active, the
`transcription:error` transition emits nothing and leaves the state
untouched, with the upstream connection still registered. -/
theorem C3_counterexample :
    handleTranscriptionError stActiveHello "m1" = (stActiveHello, []) ∧
    mapGet stActiveHello.activeConnections "m1" = some 0 ∧
    mapGet stActiveHello.transcriptBuffers "m1" = some ["hello"] := by
  refine ⟨rfl, by decide, by decide⟩

/-- C3 (amended): an adapter error while Active is logged only: the
session state is completely unchanged (the upstream connection stays
registered and the partial transcript buffer is preserved) and no event of
any kind is emitted to the room or the requester. -/
theorem C3_error_only_logged (st : AppState) (m : String) :
    handleTranscriptionError st m = (st, []) := rfl

/-- C4 (counterexample): the claim says that when persisting the
transcript fails during `stop`, teardown nevertheless completes (buffer
entry removed, room left, `stream:stopped` reached). At a state where `m1`
is Active with buffered text `hello` and the save fails, the catch block
emits `stream:error`, the buffer entry is still present and the socket is
still in the room. -/
theorem C4_counterexample :
    (handleStreamStop stActiveHello "m1" true false).snd
        = [OutEvent.streamError "Failed to stop stream"] ∧
    mapGet (handleStreamStop stActiveHello "m1" true false).fst.transcriptBuffers
        "m1" = some ["hello"] ∧
    (handleStreamStop stActiveHello "m1" true false).fst.socketRooms = ["m1"] := by
  refine ⟨by decide, by decide, by decide⟩

/-- C4 (amended): when the persistence call fails during `stop` of an
Active session with a non-empty joined transcript, the upstream connection
has already been closed and deregistered, and the persistence call was
attempted, but teardown does not complete: the transcript buffer entry is
retained, the socket stays in the room, and a `stream:error` is emitted
instead of `stream:stopped`. -/
theorem C4_persist_failure_stops_teardown (st : AppState) (m : String)
    (conn : Nat) (hconn : mapGet st.activeConnections m = some conn)
    (hbuf : String.intercalate " " ((mapGet st.transcriptBuffers m).getD []) ≠ "") :
    handleStreamStop st m true false =
      ({ st with
          activeConnections := mapDelete st.activeConnections m
          closedConns := st.closedConns ++ [conn]
          persistCalls := st.persistCalls ++
            [(m, String.intercalate " " ((mapGet st.transcriptBuffers m).getD []))] },
       [OutEvent.streamError "Failed to stop stream"]) := by
  unfold handleStreamStop
  rw [hconn]
  simp only [if_pos rfl]
  unfold handleStreamStopAfterClose
  simp [hbuf]

/-- C4 witness: the amended statement applied at the Active `hello`
state. -/
theorem C4_persist_failure_stops_teardown_witness :
    mapGet stActiveHello.activeConnections "m1" = some 0 ∧
    String.intercalate " "
        ((mapGet stActiveHello.transcriptBuffers "m1").getD []) ≠ "" ∧
    handleStreamStop stActiveHello "m1" true false =
      ({ stActiveHello with
          activeConnections := mapDelete stActiveHello.activeConnections "m1"
          closedConns := stActiveHello.closedConns ++ [0]
          persistCalls := stActiveHello.persistCalls ++
            [("m1", String.intercalate " "
                ((mapGet stActiveHello.transcriptBuffers "m1").getD []))] },
       [OutEvent.streamError "Failed to stop stream"]) :=
  ⟨by decide, by decide,
   C4_persist_failure_stops_teardown stActiveHello "m1" 0 (by decide) (by decide)⟩

/-- Helper: effect of a fully successful `stop` on the persistence ledger,
at any state where the session has a registered upstream connection. -/
theorem handleStreamStop_persistCalls (st : AppState) (m : String) (conn : Nat)
    (hconn : mapGet st.activeConnections m = some conn) :
    (handleStreamStop st m true true).fst.persistCalls
      = st.persistCalls ++
        (if String.intercalate " " ((mapGet st.transcriptBuffers m).getD []) = ""
         then []
         else [(m, String.intercalate " " ((mapGet st.transcriptBuffers m).getD []))]) := by
  unfold handleStreamStop
  rw [hconn]
  simp only [if_pos rfl]
  unfold handleStreamStopAfterClose
  by_cases hfull :
      String.intercalate " " ((mapGet st.transcriptBuffers m).getD []) = ""
  · simp [hfull]
  · simp [hfull]

/-- C5 (counterexample): the claim says the persisted transcript equals the
concatenation of the final fragment texts in emission order. For a session
with final fragments `hello` and `world`, the text handed to persistence is
the space-joined `hello world` (source: `buffer.join(' ')`), which differs
from the concatenation `helloworld`. -/
theorem C5_counterexample :
    (runSession "userA" "m1" (some "userA") fragsHelloWorld).fst.persistCalls
        = [("m1", "hello world")] ∧
    String.join (finalTexts fragsHelloWorld) = "helloworld" ∧
    ("hello world" : String) ≠ "helloworld" := by
  refine ⟨by decide, by decide, by decide⟩

/-- C5 (amended): for a session run from `start` to `stop` in which every
adapter fragment is addressed to the session, the transcript handed to the
persistence collaborator is the SPACE-JOINED sequence (not the plain
concatenation) of the final fragment texts, in emission order; when that
join is empty nothing is handed to persistence at all. -/
theorem C5_persisted_is_space_joined (userId m : String)
    (frags : List Fragment) (hmid : ∀ f ∈ frags, f.meetingId = m) :
    (runSession userId m (some userId) frags).fst.persistCalls
      = (if String.intercalate " " (finalTexts frags) = "" then []
         else [(m, String.intercalate " " (finalTexts frags))]) := by
  unfold runSession
  rw [handleStreamStart_owner_ok]
  have hconns :
      (processFragments
        { initialState with
            transcriptBuffers := mapSet initialState.transcriptBuffers m []
            activeConnections := mapSet initialState.activeConnections m
              initialState.nextConn
            nextConn := initialState.nextConn + 1
            socketRooms :=
              if initialState.socketRooms.contains m then initialState.socketRooms
              else initialState.socketRooms ++ [m] } frags).fst.activeConnections
        = [(m, 0)] := by
    rw [(processFragments_fields _ frags).1]
    simp [initialState, mapSet]
  have hget : mapGet ([(m, 0)] : List (String × Nat)) m = some 0 := by
    simp [mapGet]
  rw [handleStreamStop_persistCalls _ m 0 (by rw [hconns]; exact hget)]
  rw [(processFragments_fields _ frags).2.2.2.2]
  rw [processFragments_buffer]
  simp only [initialState, mapSet, mapGet]
  rw [finalTextsFor_of_all_mem m frags hmid]
  simp [mapGet]

/-- C5 witness: the amended statement applied to the two-fragment session
`hello`, `world`. -/
theorem C5_persisted_is_space_joined_witness :
    (∀ f ∈ fragsHelloWorld, f.meetingId = "m1") ∧
    (runSession "userA" "m1" (some "userA") fragsHelloWorld).fst.persistCalls
      = (if String.intercalate " " (finalTexts fragsHelloWorld) = "" then []
         else [("m1", String.intercalate " " (finalTexts fragsHelloWorld))]) :=
  ⟨by decide, C5_persisted_is_space_joined "userA" "m1" fragsHelloWorld (by decide)⟩

/-- C6: every fragment delivered by the adapter stream is broadcast to the
room, in emission order, carrying its text, isFinal flag and confidence;
and for every meeting id the transcript buffer grows by exactly the texts
of the final fragments addressed to it, in that same order — interim
fragments are never appended. -/
theorem C6_fragments_ordered_and_buffered (st : AppState)
    (frags : List Fragment) (m : String) :
    (processFragments st frags).snd
      = frags.map (fun f =>
          OutEvent.transcriptionUpdate f.meetingId f.text f.isFinal f.confidence) ∧
    (mapGet (processFragments st frags).fst.transcriptBuffers m).getD []
      = (mapGet st.transcriptBuffers m).getD [] ++ finalTextsFor m frags :=
  ⟨processFragments_events_eq st frags, processFragments_buffer st frags m⟩

/-- C7 (counterexample): the claim says a second `stop` has the same
observable effect as one `stop`, producing at most a harmless error and
not reporting a different result. After stopping the Active `hello`
session, a second `stop` does leave the state fixed, but it emits a second
`stream:stopped` event carrying the empty transcript — a success report
different from the first `stream:stopped` that carried `hello`, and not an
error. -/
theorem C7_counterexample :
    (handleStreamStop stActiveHello "m1" true true).snd
        = [OutEvent.streamStopped "m1" "hello"] ∧
    (handleStreamStop (handleStreamStop stActiveHello "m1" true true).fst
        "m1" true true).snd
        = [OutEvent.streamStopped "m1" ""] ∧
    (handleStreamStop (handleStreamStop stActiveHello "m1" true true).fst
        "m1" true true).fst
        = (handleStreamStop stActiveHello "m1" true true).fst ∧
    ([OutEvent.streamStopped "m1" ""] : List OutEvent)
        ≠ [OutEvent.streamStopped "m1" "hello"] ∧
    ([OutEvent.streamStopped "m1" ""] : List OutEvent) ≠ [] := by
  refine ⟨by decide, by decide, by decide, by decide, by decide⟩

/-- C7 (amended): a second `stop` on an already torn-down session id (no
registered connection, no buffer entry, socket no longer in the room)
changes no state and persists nothing, but instead of a no-op or an error
it emits a spurious `stream:stopped` event carrying the empty transcript. -/
theorem C7_second_stop_keeps_state (st : AppState) (m : String)
    (finishOk saveOk : Bool)
    (hconn : mapGet st.activeConnections m = none)
    (hbuf : mapGet st.transcriptBuffers m = none)
    (hroom : m ∉ st.socketRooms) :
    handleStreamStop st m finishOk saveOk
      = (st, [OutEvent.streamStopped m ""]) := by
  unfold handleStreamStop
  rw [hconn]
  unfold handleStreamStopAfterClose
  rw [hbuf]
  simp only [mapDelete_absent _ _ hbuf, removeRoom_not_mem _ _ hroom,
    Option.getD_none]
  rw [show String.intercalate " " ([] : List String) = "" from rfl]
  simp

/-- State after the Active `hello` session has been stopped once. -/
def stAfterStop : AppState :=
  (handleStreamStop stActiveHello "m1" true true).fst

/-- C7 witness: the amended statement applied at the state reached after
the first `stop`. -/
theorem C7_second_stop_keeps_state_witness :
    mapGet stAfterStop.activeConnections "m1" = none ∧
    mapGet stAfterStop.transcriptBuffers "m1" = none ∧
    "m1" ∉ stAfterStop.socketRooms ∧
    handleStreamStop stAfterStop "m1" true true
      = (stAfterStop, [OutEvent.streamStopped "m1" ""]) :=
  ⟨by decide, by decide, by decide,
   C7_second_stop_keeps_state stAfterStop "m1" true true (by decide) (by decide)
     (by decide)⟩

/-- C8 (counterexample): the claim says that when opening the upstream
stream fails, the registry entry created for the session is reverted so no
state for the id remains. On a fresh handler, a `start` by the owner whose
upstream open fails does emit `stream:error`, but the transcript-buffer
entry created before the open is left behind: the buffers map still holds
an (empty) entry for `m1`. -/
theorem C8_counterexample :
    handleStreamStart initialState "userA" "m1" (some "userA") false =
      ({ activeConnections := [], nextConn := 0, closedConns := [],
         transcriptBuffers := [("m1", [])], socketRooms := [],
         persistCalls := [] },
       [OutEvent.streamError "Failed to start stream"]) ∧
    mapGet (handleStreamStart initialState "userA" "m1"
        (some "userA") false).fst.transcriptBuffers "m1" ≠ none := by
  refine ⟨by decide, by decide⟩

/-- C8 (amended): for every `start` that passes the ownership check but
whose upstream open fails, a `stream:error` is emitted to the requester
and the connection registry and room membership are untouched, but the
transcript-buffer entry set before the open is NOT reverted: an empty
buffer entry for the id remains. -/
theorem C8_failed_open_keeps_buffer_entry (st : AppState) (userId m : String) :
    handleStreamStart st userId m (some userId) false =
      ({ st with transcriptBuffers := mapSet st.transcriptBuffers m [] },
       [OutEvent.streamError "Failed to start stream"]) ∧
    mapGet (handleStreamStart st userId m
        (some userId) false).fst.transcriptBuffers m = some [] := by
  constructor
  · simp [handleStreamStart]
  · simp [handleStreamStart, mapGet_mapSet_self]

/-- C9: a Deepgram transcript event whose extracted transcript text is
absent or empty produces no `transcription:data` fragment at all: the
state (in particular every transcript buffer) is unchanged and nothing is
broadcast, regardless of the is_final flag or confidence of the event. -/
theorem C9_empty_transcript_ignored (st : AppState) (m : String)
    (data : DeepgramTranscriptEvent)
    (h : extractTranscript data = none ∨ extractTranscript data = some "") :
    dispatchDeepgramTranscript st m data = (st, []) := by
  unfold dispatchDeepgramTranscript onDeepgramTranscript
  cases h with
  | inl h1 => rw [h1]
  | inr h1 => rw [h1]; simp

/-- A Deepgram event whose first alternative carries the empty transcript. -/
def emptyDGEvent : DeepgramTranscriptEvent :=
  { alternatives := some [{ transcript := some "", confidence := some 5 }]
    is_final := true }

/-- C9 witness: the statement applied at the Active state to a final event
with empty transcript text. -/
theorem C9_empty_transcript_ignored_witness :
    (extractTranscript emptyDGEvent = none
      ∨ extractTranscript emptyDGEvent = some "") ∧
    dispatchDeepgramTranscript stActive "m1" emptyDGEvent = (stActive, []) :=
  ⟨Or.inr (by decide),
   C9_empty_transcript_ignored stActive "m1" emptyDGEvent (Or.inr (by decide))⟩

/-- Helper: `handleStreamStopAfterClose` never touches the entries of
other meeting ids in either map. -/
theorem handleStreamStopAfterClose_frame (st : AppState) (m m2 : String)
    (saveOk : Bool) (h : m2 ≠ m) :
    mapGet (handleStreamStopAfterClose st m saveOk).fst.activeConnections m2
      = mapGet st.activeConnections m2 ∧
    mapGet (handleStreamStopAfterClose st m saveOk).fst.transcriptBuffers m2
      = mapGet st.transcriptBuffers m2 := by
  unfold handleStreamStopAfterClose
  by_cases hfull :
      String.intercalate " " ((mapGet st.transcriptBuffers m).getD []) = ""
  · simp [hfull, mapGet_mapDelete_ne _ _ _ h]
  · cases saveOk
    · simp [hfull]
    · simp [hfull, mapGet_mapDelete_ne _ _ _ h]

/-- C10: a `stop` for meeting id m only ever removes the entries keyed by
m: for every other id, its registered upstream connection and its buffered
fragments are unchanged, on every code path (connection present or not,
finish or save failing or not). -/
theorem C10_stop_frame (st : AppState) (m m2 : String)
    (finishOk saveOk : Bool) (h : m2 ≠ m) :
    mapGet (handleStreamStop st m finishOk saveOk).fst.activeConnections m2
      = mapGet st.activeConnections m2 ∧
    mapGet (handleStreamStop st m finishOk saveOk).fst.transcriptBuffers m2
      = mapGet st.transcriptBuffers m2 := by
  cases hc : mapGet st.activeConnections m with
  | none =>
    unfold handleStreamStop
    rw [hc]
    exact handleStreamStopAfterClose_frame st m m2 saveOk h
  | some conn =>
    cases finishOk
    · unfold handleStreamStop
      rw [hc]
      simp
    · unfold handleStreamStop
      rw [hc]
      have hframe := handleStreamStopAfterClose_frame
        { st with
            activeConnections := mapDelete st.activeConnections m
            closedConns := st.closedConns ++ [conn] } m m2 saveOk h
      have h2 := mapGet_mapDelete_ne st.activeConnections m m2 h
      exact ⟨hframe.1.trans h2, hframe.2⟩

/-- State with two concurrently active sessions m1 (owner userA, buffered
`hello`) and m2 (owner userB). -/
def stTwo : AppState :=
  (handleStreamStart stActiveHello "userB" "m2" (some "userB") true).fst

/-- C10 witness: stopping m1 leaves the m2 connection entry and buffer
entry unchanged. -/
theorem C10_stop_frame_witness :
    ("m2" : String) ≠ "m1" ∧
    (mapGet (handleStreamStop stTwo "m1" true true).fst.activeConnections "m2"
        = mapGet stTwo.activeConnections "m2" ∧
     mapGet (handleStreamStop stTwo "m1" true true).fst.transcriptBuffers "m2"
        = mapGet stTwo.transcriptBuffers "m2") :=
  ⟨by decide, C10_stop_frame stTwo "m1" "m2" true true (by decide)⟩
